import Mathlib

/-!
Shallow embedding of the libcamera ROS driver
(src/src/libcamera_ros_driver.cpp) for checking its specification.

The embedding models, faithfully to the C++ source:
  - control validation and staging (LibcameraRosDriver::updateControlParameter),
  - control declaration (LibcameraRosDriver::declareControlParameters),
  - the onInit control-request phase (the if-blocks around lines 344 to 395),
  - startup buffer mapping (the plane loop and mmap call in onInit),
  - frame assembly with and without stride removal,
  - the timestamp offset logic, and
  - the completion handler (LibcameraRosDriver::requestComplete) as a trace
    of externally visible device and publish actions.
-/

set_option autoImplicit false

namespace LibcameraRosDriver

/-! ## Control values and the validator -/

/-- Model of libcamera ControlValue: a type tag (0 encodes ControlTypeNone),
an array flag with an element count, and the payload used by the ordering
comparisons, modelled as an integer. -/
structure ControlValue where
  typ : Nat
  isArray : Bool
  numElements : Nat
  val : Int
  deriving DecidableEq, Repr

/-- value.isNone() checks the ControlTypeNone tag. -/
def ControlValue.isNone (v : ControlValue) : Bool :=
  v.typ == 0

/-- Model of libcamera ControlId together with the extent reported by
get_extent for it: numeric id, type tag, expected array extent. -/
structure ControlId where
  id : Nat
  typ : Nat
  extent : Nat
  deriving DecidableEq, Repr

/-- Model of libcamera ControlInfo: the reported bounds, as integers. -/
structure ControlInfo where
  min : Int
  max : Int
  deriving DecidableEq, Repr

/-- The staged pending controls, parameters_ in the source: a map from the
numeric control id to the staged value, modelled as an association list whose
head shadows later entries (List.lookup finds the first match). -/
abbrev PendingControls := List (Nat × Int)

/-- LibcameraRosDriver::updateControlParameter, lines 558 to 593.
Checks, in source order: value.isNone(); type-tag match against the control
id; element-count match when the value is an array and the expected extent is
non-zero; and the range check
  value < ci.min() || (ci.max() > ci.min() ? value > ci.max() : false).
On success the value is staged into parameters_ keyed by id->id().
Returns the boolean result together with the resulting parameters_ map. -/
def updateControlParameter (value : ControlValue) (id : ControlId)
    (ci : ControlInfo) (params : PendingControls) : Bool × PendingControls :=
  if value.isNone then
    (false, params)
  else if value.typ ≠ id.typ then
    (false, params)
  else if value.isArray = true ∧ id.extent > 0 ∧ value.numElements ≠ id.extent then
    (false, params)
  else if value.val < ci.min ∨ (ci.min < ci.max ∧ ci.max < value.val) then
    (false, params)
  else
    (true, (id.id, value.val) :: params)

/-! ## Control declaration -/

/-- One control as reported by the device to declareControlParameters:
its name, whether get_extent succeeds for it (it throws for controls unknown
to this libcamera SDK version), and the element counts of the reported
minimum and maximum. -/
structure DeviceControl where
  name : String
  extentKnown : Bool
  minElems : Nat
  maxElems : Nat
  deriving DecidableEq, Repr

/-- The loop body of LibcameraRosDriver::declareControlParameters,
lines 528 to 551: a control whose extent lookup throws is skipped with a log
line; otherwise its name is stored in parameter_ids_ and then, if the
minimum and maximum element counts differ, ros::shutdown() is invoked and
the loop aborts (modelled as an error). Returns the declared names. -/
def declareLoop : List DeviceControl → List String → Except Unit (List String)
  | [], acc => .ok acc
  | c :: rest, acc =>
    if c.extentKnown = false then
      declareLoop rest acc
    else
      let acc2 := acc ++ [c.name]
      if c.minElems ≠ c.maxElems then
        .error ()
      else
        declareLoop rest acc2

/-- LibcameraRosDriver::declareControlParameters, starting from an empty
parameter_ids_ map. -/
def declareControlParameters (cs : List DeviceControl) : Except Unit (List String) :=
  declareLoop cs []

/-! ## The onInit control-request phase -/

/-- The control names requested through ROS parameters in onInit, in source
order (lines 344 to 395), paired with whether the source guards the
parameter_ids_ lookup against a missing entry before dereferencing it.
Only the AwbEnable block (lines 361 to 366) carries such a guard. -/
def controlParamNames : List (String × Bool) :=
  [("ExposureTime", false), ("FrameDurationLimits", false),
   ("AeConstraintMode", false), ("Brightness", false), ("Sharpness", false),
   ("AwbEnable", true), ("AeEnable", false), ("Saturation", false),
   ("Contrast", false), ("ExposureValue", false), ("AnalogueGain", false),
   ("AwbMode", false), ("AeMeteringMode", false), ("ScalerCrop", false),
   ("AeExposureMode", false)]

/-- The sequence of if-blocks in onInit that stage user-requested controls.
ids models parameter_ids_ (none = the device did not declare the control, so
operator[] yields a null pointer); requested models which optional ROS
parameters are set. Each unguarded block evaluates
parameter_ids_[name]->type(), which dereferences a null pointer when the
entry is missing: the function returns the name of the first control whose
handling performs such a null dereference, and none when the phase runs to
completion (guarded misses only log an error and continue). -/
def controlPhaseLoop (ids : String → Option ControlId) (requested : String → Bool) :
    List (String × Bool) → Option String
  | [] => none
  | (n, guarded) :: rest =>
    if requested n then
      match ids n with
      | none =>
        if guarded then
          controlPhaseLoop ids requested rest
        else
          some n
      | some _ => controlPhaseLoop ids requested rest
    else
      controlPhaseLoop ids requested rest

/-- The whole control-request phase of onInit, lines 344 to 395. -/
def onInitControlPhase (ids : String → Option ControlId) (requested : String → Bool) :
    Option String :=
  controlPhaseLoop ids requested controlParamNames

/-! ## Startup buffer mapping -/

/-- libcamera FrameBuffer::Plane::kInvalidOffset, the sentinel for an
undefined plane offset (the maximum value of an unsigned int). -/
def kInvalidOffset : Nat := 4294967295

/-- One plane of a frame buffer: byte offset, byte length, and the
underlying dmabuf file descriptor (SharedFD::isValid() is fd being
non-negative; -1 encodes an invalid descriptor). -/
structure Plane where
  offset : Nat
  length : Nat
  fd : Int
  deriving DecidableEq, Repr

/-- The error outcomes of the buffer-mapping block in onInit; each one
logs an error and calls ros::shutdown(), aborting startup. -/
inductive MapError where
  | invalidOffset
  | invalidFd
  | inconsistentPlanes
  | mmapFailed
  deriving DecidableEq, Repr

/-- The memory region recorded in buffer_info_: base address, the mapped
byte length, and the protection and sharing flags passed to mmap
(the source passes PROT_READ and MAP_SHARED). -/
structure MappedBuffer where
  addr : Nat
  size : Nat
  readOnly : Bool
  shared : Bool
  deriving DecidableEq, Repr

/-- The per-plane loop in onInit, lines 416 to 439. For each plane, in
source order: an offset equal to kInvalidOffset is an error; the running
buffer length becomes max(buffer_length, offset + length); an invalid file
descriptor is an error; the first plane fixes the common descriptor (the
accumulator starts at -1) and any later plane with a different descriptor
is an error. Returns the final buffer length and common descriptor. -/
def mapPlanesLoop : List Plane → Nat → Int → Except MapError (Nat × Int)
  | [], bufLen, fd => .ok (bufLen, fd)
  | p :: rest, bufLen, fd =>
    if p.offset = kInvalidOffset then
      .error .invalidOffset
    else
      let bufLen2 := max bufLen (p.offset + p.length)
      if p.fd < 0 then
        .error .invalidFd
      else if fd = -1 then
        mapPlanesLoop rest bufLen2 p.fd
      else if fd ≠ p.fd then
        .error .inconsistentPlanes
      else
        mapPlanesLoop rest bufLen2 fd

/-- The buffer-length fold that the plane loop computes on its success
path: the maximum over the planes of offset + length. -/
def bufferLengthFold (planes : List Plane) (acc : Nat) : Nat :=
  planes.foldl (fun a p => max a (p.offset + p.length)) acc

/-- The common file descriptor of a buffer: the first plane fixes it
(the loop accumulator starts at -1). -/
def commonFd : List Plane → Int
  | [] => -1
  | p :: _ => p.fd

/-- The buffer-mapping block of onInit, lines 413 to 450: run the plane
loop, then call mmap(nullptr, buffer_length, PROT_READ, MAP_SHARED, fd, 0).
The OS mmap call is an oracle from descriptor and length to an optional
base address; a none result is MAP_FAILED. On success the region is
recorded in buffer_info_ with the mapped length. -/
def mapBuffer (mmapOracle : Int → Nat → Option Nat) (planes : List Plane) :
    Except MapError MappedBuffer :=
  match mapPlanesLoop planes 0 (-1) with
  | .error e => .error e
  | .ok (bufLen, fd) =>
    match mmapOracle fd bufLen with
    | none => .error .mmapFailed
    | some addr => .ok ⟨addr, bufLen, true, true⟩

/-! ## Frame assembly -/

/-- memcpy of len bytes from the source buffer starting at byte offset off.
The source buffer is a function from byte index to byte value. -/
def copyRow (data : Nat → Nat) (off len : Nat) : List Nat :=
  (List.range len).map (fun j => data (off + j))

/-- The stride-removal loop of requestComplete, lines 655 to 660: for each
row index i below height, copy width * 3 bytes from source offset
i * stride to destination offset i * width * 3 (the source hardcodes 3
bytes per pixel). Row h is appended after rows 0 to h - 1, so it lands at
destination offset h * (width * 3). -/
def assembleLoop (data : Nat → Nat) (width stride : Nat) : Nat → List Nat
  | 0 => []
  | h + 1 => assembleLoop data width stride h ++ copyRow data (h * stride) (width * 3)

/-- Row i of a flat payload whose rows have length rowLen. -/
def rowOf (l : List Nat) (rowLen i : Nat) : List Nat :=
  (l.drop (i * rowLen)).take rowLen

/-! ## Timestamps -/

/-- The start-time offset state: start_time_offset_ and
start_time_offset_obtained_, initialized to zero and false. -/
structure TimeState where
  offset : Int
  obtained : Bool
  deriving DecidableEq, Repr

/-- The stamp computation of requestComplete, lines 619 to 626: the stamp
starts as the device timestamp from the frame metadata; when use_ros_time
is configured, the first frame captures start_time_offset_ as the
difference between the wall clock (ros::Time::now()) and the stamp, and
every frame, this one included, then adds the stored offset. Returns the
published stamp and the successor state. -/
def computeStamp (useRosTime : Bool) (st : TimeState) (ts now : Int) :
    Int × TimeState :=
  if useRosTime then
    let st2 := if st.obtained = false then ⟨now - ts, true⟩ else st
    (ts + st2.offset, st2)
  else
    (ts, st)

/-- The stamps published for a sequence of frames, each frame carrying its
device timestamp and the wall clock read at its completion. -/
def stampRun (useRosTime : Bool) (st : TimeState) :
    List (Int × Int) → List Int
  | [] => []
  | (ts, now) :: rest =>
    let r := computeStamp useRosTime st ts now
    r.1 :: stampRun useRosTime r.2 rest

/-! ## The completion handler -/

/-- The request status delivered to requestComplete. libcamera requests
report RequestPending, RequestComplete or RequestCancelled. -/
inductive ReqStatus where
  | completed
  | cancelled
  | pending
  deriving DecidableEq, Repr

/-- The format family reported by format_type for the configured stream
pixel format: the raw uncompressed family, or anything else. -/
inductive FormatType where
  | raw
  | other
  deriving DecidableEq, Repr

/-- The published image message, as far as the claims observe it: the row
step and the pixel bytes. -/
structure ImageMsg where
  step : Nat
  data : List Nat
  deriving DecidableEq, Repr

/-- The externally visible actions a run of requestComplete can perform,
in order: publish an image to the sink, write an error log line, fail the
byte-count assertion (aborting the process), set controls on the request,
reset the request with Request::ReuseBuffers, and queue the request to the
device. -/
inductive DevAction where
  | publishImage : ImageMsg → DevAction
  | logError : DevAction
  | assertFail : DevAction
  | setControls : DevAction
  | reuseRequest : DevAction
  | queueRequest : DevAction
  deriving DecidableEq, Repr

/-- LibcameraRosDriver::requestComplete, lines 599 to 684, as the trace of
its externally visible actions. On RequestComplete status: the per-plane
consumed byte counts are summed (bytesused); for a raw-family format the
assertion buffer_info_[buffer].size == bytesused runs before either
assembly mode; pass-through copies the whole mapped region verbatim with
step = stride, stride removal runs assembleLoop with step = width * 3; the
message is published, then the request is reused and queued again. A
non-raw format logs an error and returns early. On RequestCancelled
status: log, then reuse and queue. Any other status falls through the
if-else chain straight to reuse and queue. The handler contains no
request->controls() write: controls are applied to each request once, in
onInit lines 458 to 461. -/
def requestComplete (removeStride : Bool) (status : ReqStatus)
    (fmt : FormatType) (data : Nat → Nat) (width height stride : Nat)
    (bufSize bytesused : Nat) : List DevAction :=
  match status with
  | .completed =>
    if fmt = .raw then
      if bufSize = bytesused then
        let msg : ImageMsg :=
          if removeStride then
            ⟨width * 3, assembleLoop data width stride height⟩
          else
            ⟨stride, copyRow data 0 bufSize⟩
        [.publishImage msg, .reuseRequest, .queueRequest]
      else
        [.assertFail]
    else
      [.logError]
  | .cancelled => [.logError, .reuseRequest, .queueRequest]
  | .pending => [.reuseRequest, .queueRequest]

/-! ## Helper lemmas -/

theorem copyRow_length (data : Nat → Nat) (off len : Nat) :
    (copyRow data off len).length = len := by
  simp [copyRow]

theorem assembleLoop_length (data : Nat → Nat) (width stride h : Nat) :
    (assembleLoop data width stride h).length = h * (width * 3) := by
  induction h with
  | zero => simp [assembleLoop]
  | succ k ih =>
    simp only [assembleLoop, List.length_append, ih, copyRow_length]
    ring

theorem declareLoop_mismatch (cs : List DeviceControl) (acc : List String)
    (h : ∃ c ∈ cs, c.extentKnown = true ∧ c.minElems ≠ c.maxElems) :
    declareLoop cs acc = .error () := by
  induction cs generalizing acc with
  | nil => simp at h
  | cons c rest ih =>
    obtain ⟨d, hd, hk, hne⟩ := h
    unfold declareLoop
    rcases List.mem_cons.mp hd with rfl | hmem
    · simp [hk, hne]
    · by_cases hck : c.extentKnown = false
      · simp only [if_pos hck]
        exact ih _ ⟨d, hmem, hk, hne⟩
      · by_cases hcm : c.minElems ≠ c.maxElems
        · simp [hck, hcm]
        · simp only [if_neg hck, if_neg hcm]
          exact ih _ ⟨d, hmem, hk, hne⟩

theorem declareLoop_all_skipped (cs : List DeviceControl) (acc : List String)
    (h : ∀ c ∈ cs, c.extentKnown = false) :
    declareLoop cs acc = .ok acc := by
  induction cs generalizing acc with
  | nil => rfl
  | cons c rest ih =>
    unfold declareLoop
    simp only [if_pos (h c (List.mem_cons_self c rest))]
    exact ih _ (fun d hd => h d (List.mem_cons_of_mem c hd))

/-! ## Claims -/

/-- C3: every control value accepted by updateControlParameter satisfies
min ≤ value and (max ≤ min or value ≤ max), with max ≤ min the sentinel for
no upper bound, and the accepted value is staged under the control id;
every value violating either clause is rejected and parameters_ is left
unchanged. -/
theorem C3_validate_and_stage_range (value : ControlValue) (id : ControlId)
    (ci : ControlInfo) (params : PendingControls) :
    ((updateControlParameter value id ci params).1 = true →
        ci.min ≤ value.val ∧ (ci.max ≤ ci.min ∨ value.val ≤ ci.max) ∧
        ((updateControlParameter value id ci params).2).lookup id.id
          = some value.val)
    ∧ ((value.val < ci.min ∨ (ci.min < ci.max ∧ ci.max < value.val)) →
        (updateControlParameter value id ci params).1 = false ∧
        (updateControlParameter value id ci params).2 = params) := by
  unfold updateControlParameter
  split_ifs with h1 h2 h3 h4
  · exact ⟨fun h => by simp at h, fun _ => ⟨rfl, rfl⟩⟩
  · exact ⟨fun h => by simp at h, fun _ => ⟨rfl, rfl⟩⟩
  · exact ⟨fun h => by simp at h, fun _ => ⟨rfl, rfl⟩⟩
  · exact ⟨fun h => by simp at h, fun _ => ⟨rfl, rfl⟩⟩
  · refine ⟨fun _ => ⟨?_, ?_, ?_⟩, fun hv => absurd hv h4⟩
    · push_neg at h4
      exact h4.1
    · push_neg at h4
      rcases le_or_lt ci.max ci.min with hle | hlt
      · exact Or.inl hle
      · exact Or.inr (h4.2 hlt)
    · simp [List.lookup]

/-- C3 witness: the value 5 is accepted against the range [0, 10] and staged
under id 7; the value 20 is rejected against the same range and the staged
map is unchanged. -/
theorem C3_validate_and_stage_range_witness :
    ((0 : Int) ≤ 5 ∧ ((10 : Int) ≤ 0 ∨ (5 : Int) ≤ 10) ∧
      ((updateControlParameter ⟨1, false, 1, 5⟩ ⟨7, 1, 0⟩ ⟨0, 10⟩ []).2).lookup 7
        = some 5)
    ∧ ((updateControlParameter ⟨1, false, 1, 20⟩ ⟨7, 1, 0⟩ ⟨0, 10⟩ []).1 = false ∧
      (updateControlParameter ⟨1, false, 1, 20⟩ ⟨7, 1, 0⟩ ⟨0, 10⟩ []).2 = []) :=
  ⟨(C3_validate_and_stage_range ⟨1, false, 1, 5⟩ ⟨7, 1, 0⟩ ⟨0, 10⟩ []).1 (by decide),
   (C3_validate_and_stage_range ⟨1, false, 1, 20⟩ ⟨7, 1, 0⟩ ⟨0, 10⟩ []).2
     (by decide)⟩

/-- C9: a device-declared control whose minimum and maximum report differing
element counts makes declareControlParameters call ros::shutdown() and abort
(an error result); by contrast, controls of unknown extent alone are merely
skipped with a warning and declaration succeeds. -/
theorem C9_declare_mismatch_fatal (cs : List DeviceControl) :
    ((∃ c ∈ cs, c.extentKnown = true ∧ c.minElems ≠ c.maxElems) →
      declareControlParameters cs = .error ())
    ∧ ((∀ c ∈ cs, c.extentKnown = false) →
      declareControlParameters cs = .ok []) :=
  ⟨fun h => declareLoop_mismatch cs [] h,
   fun h => declareLoop_all_skipped cs [] h⟩

/-- C9 witness: a control list with one unknown-extent control and one
control whose bound element counts differ is fatal, and a list holding only
unknown-extent controls declares successfully. -/
theorem C9_declare_mismatch_fatal_witness :
    declareControlParameters
        [⟨"VendorWeird", false, 1, 1⟩, ⟨"ColourGains", true, 1, 2⟩] = .error ()
    ∧ declareControlParameters [⟨"VendorWeird", false, 1, 1⟩] = .ok [] :=
  ⟨(C9_declare_mismatch_fatal
      [⟨"VendorWeird", false, 1, 1⟩, ⟨"ColourGains", true, 1, 2⟩]).1
      ⟨⟨"ColourGains", true, 1, 2⟩, by decide, by decide, by decide⟩,
   (C9_declare_mismatch_fatal [⟨"VendorWeird", false, 1, 1⟩]).2 (by decide)⟩

/-- C2: with a device that declares no controls (a grayscale sensor is one
way to lose the color controls), requesting control/saturation makes the
onInit control phase evaluate the null parameter_ids_ entry for Saturation
(a null-pointer dereference at the type() call), while the AwbEnable block,
the only guarded one (lines 361 to 366), survives the same situation and
only logs an error. -/
theorem C2_unguarded_null_deref_eval :
    onInitControlPhase (fun _ => none) (fun n => n == "Saturation")
      = some "Saturation"
    ∧ onInitControlPhase (fun _ => none) (fun n => n == "AwbEnable") = none := by
  exact ⟨rfl, rfl⟩

/-- C6: a completion callback with status Cancelled produces exactly an
error log, a request reuse and a requeue: no publish action reaches the
sink, and the request still returns to the device queue. -/
theorem C6_cancelled_trace (removeStride : Bool) (fmt : FormatType)
    (data : Nat → Nat) (width height stride bufSize bytesused : Nat) :
    requestComplete removeStride .cancelled fmt data width height stride
        bufSize bytesused
      = [DevAction.logError, DevAction.reuseRequest, DevAction.queueRequest] :=
  rfl

/-- C4 counterexample: at a concrete completed frame whose format family is
not raw, the handler trace contains no queueRequest action, so the request
is not returned to the device queue, contrary to the claim. -/
theorem C4_counterexample :
    (requestComplete false .completed .other (fun _ => 0) 4 4 12 48 48).contains
        DevAction.queueRequest = false := by
  decide

/-- C4 amended: a completed frame whose stream format is outside the raw
family makes the handler log an error and return early: the frame is
dropped (no publish action), the device is not stopped, but the request is
not requeued either; its trace is exactly one error log. -/
theorem C4_amended_unsupported_drop (removeStride : Bool) (data : Nat → Nat)
    (width height stride bufSize bytesused : Nat) :
    requestComplete removeStride .completed .other data width height stride
        bufSize bytesused
      = [DevAction.logError] :=
  rfl

/-- C10: the assertion buffer_info_[buffer].size == bytesused runs before
the output-mode branch: in both modes, pass-through and stride-removed, a
raw completed frame with mismatched byte counts fails the assertion and
neither assembles nor publishes. -/
theorem C10_assert_both_modes (removeStride : Bool) (data : Nat → Nat)
    (width height stride bufSize bytesused : Nat)
    (hne : bufSize ≠ bytesused) :
    requestComplete removeStride .completed .raw data width height stride
        bufSize bytesused
      = [DevAction.assertFail] := by
  simp [requestComplete, hne]

/-- C10 witness: with stride removal enabled and byte counts 5 and 7, the
handler fails the assertion. -/
theorem C10_assert_both_modes_witness :
    requestComplete true .completed .raw (fun _ => 0) 2 2 6 5 7
      = [DevAction.assertFail] :=
  C10_assert_both_modes true (fun _ => 0) 2 2 6 5 7 (by decide)

/-- C1 counterexample: at a concrete completion with status Completed and a
non-raw stream format, the handler trace contains neither a reuse nor a
requeue action: the request is not reset and not resubmitted, contrary to
the claim that every Completed or Cancelled callback resubmits. -/
theorem C1_counterexample :
    (requestComplete true .completed .other (fun _ => 0) 8 8 24 192 192).contains
        DevAction.reuseRequest = false
    ∧ (requestComplete true .completed .other (fun _ => 0) 8 8 24 192 192).contains
        DevAction.queueRequest = false := by
  decide

/-- C1 amended: for a completion with status Cancelled, or Completed with a
raw-family format and consistent byte counts, the handler resets the
request (Request::ReuseBuffers) and queues it to the device again; the
handler itself writes no controls onto the request (the PendingControls
snapshot is applied to each request once, at startup); a Completed frame
with an unsupported format returns early without resubmission. -/
theorem C1_amended_requeue (removeStride : Bool) (status : ReqStatus)
    (fmt : FormatType) (data : Nat → Nat)
    (width height stride bufSize bytesused : Nat)
    (hstat : status = .cancelled ∨
      (status = .completed ∧ fmt = .raw ∧ bufSize = bytesused)) :
    DevAction.reuseRequest ∈ requestComplete removeStride status fmt data
        width height stride bufSize bytesused
    ∧ DevAction.queueRequest ∈ requestComplete removeStride status fmt data
        width height stride bufSize bytesused
    ∧ DevAction.setControls ∉ requestComplete removeStride status fmt data
        width height stride bufSize bytesused := by
  rcases hstat with rfl | ⟨rfl, rfl, rfl⟩
  · refine ⟨by simp [requestComplete], by simp [requestComplete], ?_⟩
    intro hmem
    simp [requestComplete] at hmem
  · refine ⟨by simp [requestComplete], by simp [requestComplete], ?_⟩
    intro hmem
    simp [requestComplete] at hmem

/-- C1 witness: a cancelled completion at concrete inputs is reused and
requeued with no control write in its trace. -/
theorem C1_amended_requeue_witness :
    DevAction.reuseRequest ∈ requestComplete false .cancelled .raw
        (fun _ => 0) 2 2 6 24 24
    ∧ DevAction.queueRequest ∈ requestComplete false .cancelled .raw
        (fun _ => 0) 2 2 6 24 24
    ∧ DevAction.setControls ∉ requestComplete false .cancelled .raw
        (fun _ => 0) 2 2 6 24 24 :=
  C1_amended_requeue false .cancelled .raw (fun _ => 0) 2 2 6 24 24
    (Or.inl rfl)

/-- Runs of stampRun in the alternate time mode from a state that has
already captured the offset add that same offset to every frame. -/
theorem stampRun_obtained (off : Int) (frames : List (Int × Int)) :
    stampRun true ⟨off, true⟩ frames = frames.map (fun p => p.1 + off) := by
  induction frames with
  | nil => rfl
  | cons f rest ih =>
    obtain ⟨ts, now⟩ := f
    simp only [stampRun, computeStamp, List.map_cons]
    simp [ih]

/-- stampRun outside the alternate time mode never alters the state or the
device timestamps. -/
theorem stampRun_device_clock (st : TimeState) (frames : List (Int × Int)) :
    stampRun false st frames = frames.map Prod.fst := by
  induction frames generalizing st with
  | nil => rfl
  | cons f rest ih =>
    obtain ⟨ts, now⟩ := f
    simp only [stampRun, computeStamp, List.map_cons]
    simp [ih]

/-- C8: when use_ros_time is not configured, every published stamp is the
device timestamp unmodified; when it is configured, the offset between the
wall clock and the device clock is captured at the first completed frame
(start_time_offset_obtained_ flips once) and that same fixed offset is
added to the device timestamp of that frame and of every later frame. -/
theorem C8_time_offset :
    (∀ (st : TimeState) (frames : List (Int × Int)),
      stampRun false st frames = frames.map Prod.fst)
    ∧ (∀ (t0 n0 : Int) (rest : List (Int × Int)),
      stampRun true ⟨0, false⟩ ((t0, n0) :: rest)
        = (t0 + (n0 - t0)) :: rest.map (fun p => p.1 + (n0 - t0))) := by
  refine ⟨stampRun_device_clock, fun t0 n0 rest => ?_⟩
  simp only [stampRun, computeStamp]
  simp [stampRun_obtained]

/-- All rows of the stride-removal loop: row i of the packed output is
exactly the memcpy of width * 3 bytes from source offset i * stride. -/
theorem assembleLoop_rowOf (data : Nat → Nat) (width stride h i : Nat)
    (hi : i < h) :
    rowOf (assembleLoop data width stride h) (width * 3) i
      = copyRow data (i * stride) (width * 3) := by
  induction h with
  | zero => omega
  | succ k ih =>
    rcases Nat.lt_succ_iff_lt_or_eq.mp hi with hik | rfl
    · have hlen : i * (width * 3) ≤ (assembleLoop data width stride k).length := by
        rw [assembleLoop_length]
        exact Nat.mul_le_mul_right _ (Nat.le_of_lt hik)
      have hrow : width * 3 ≤
          ((assembleLoop data width stride k).drop (i * (width * 3))).length := by
        rw [List.length_drop, assembleLoop_length]
        have hstep : i * (width * 3) + width * 3 ≤ k * (width * 3) := by
          have : (i + 1) * (width * 3) ≤ k * (width * 3) :=
            Nat.mul_le_mul_right _ (Nat.succ_le_of_lt hik)
          calc i * (width * 3) + width * 3 = (i + 1) * (width * 3) := by ring
            _ ≤ k * (width * 3) := this
        omega
      unfold assembleLoop rowOf
      rw [List.drop_append_of_le_length hlen, List.take_append_of_le_length hrow]
      have := ih hik
      unfold rowOf at this
      exact this
    · have hlen : (assembleLoop data width stride i).length = i * (width * 3) :=
        assembleLoop_length data width stride i
      unfold assembleLoop rowOf
      rw [List.drop_append_of_le_length (le_of_eq hlen.symm), ← hlen,
        List.drop_length, List.nil_append]
      exact List.take_of_length_le (le_of_eq (copyRow_length data (i * stride) (width * 3)))

/-- C5: the stride-removed payload has total length height * width * 3, and
for every row index i below height, row i of the payload has length
width * 3 and equals the source bytes from i * stride to
i * stride + width * 3 (the source hardcodes 3 bytes per pixel, so the
trailing per-row padding of a hardware-aligned buffer is discarded). -/
theorem C5_stride_removed_rows (data : Nat → Nat) (width height stride : Nat) :
    (assembleLoop data width stride height).length = height * (width * 3)
    ∧ ∀ i, i < height →
        rowOf (assembleLoop data width stride height) (width * 3) i
          = copyRow data (i * stride) (width * 3)
        ∧ (rowOf (assembleLoop data width stride height) (width * 3) i).length
          = width * 3 := by
  refine ⟨assembleLoop_length data width stride height, fun i hi => ?_⟩
  have hr := assembleLoop_rowOf data width stride height i hi
  exact ⟨hr, by rw [hr, copyRow_length]⟩

/-- C5 witness: a 2 by 2 image with stride 7 over the identity byte source:
the payload has length 12 and row 1 is the six bytes starting at source
offset 7. -/
theorem C5_stride_removed_rows_witness :
    (assembleLoop (fun k => k) 2 7 2).length = 2 * (2 * 3)
    ∧ (rowOf (assembleLoop (fun k => k) 2 7 2) (2 * 3) 1
        = copyRow (fun k => k) (1 * 7) (2 * 3)
      ∧ (rowOf (assembleLoop (fun k => k) 2 7 2) (2 * 3) 1).length = 2 * 3) :=
  ⟨(C5_stride_removed_rows (fun k => k) 2 2 7).1,
   (C5_stride_removed_rows (fun k => k) 2 2 7).2 1 (by decide)⟩

/-- When the plane loop succeeds, every traversed plane had a defined
offset and a valid descriptor equal to the returned common descriptor, a
non-sentinel starting descriptor passes through unchanged, and the
returned length is the running maximum of offset + length. -/
theorem mapPlanesLoop_ok_facts (planes : List Plane) (acc : Nat) (fd : Int)
    (bufLen : Nat) (fdOut : Int)
    (h : mapPlanesLoop planes acc fd = .ok (bufLen, fdOut)) :
    (∀ p ∈ planes, p.offset ≠ kInvalidOffset ∧ 0 ≤ p.fd ∧ p.fd = fdOut)
    ∧ (fd ≠ -1 → fdOut = fd)
    ∧ bufLen = bufferLengthFold planes acc := by
  induction planes generalizing acc fd with
  | nil =>
    simp [mapPlanesLoop] at h
    exact ⟨by simp, fun _ => h.2.symm, h.1.symm⟩
  | cons p rest ih =>
    unfold mapPlanesLoop at h
    split_ifs at h with h1 h2 h3 h4
    · obtain ⟨hrest, hpass, hlen⟩ := ih _ _ h
      have hpfd : p.fd ≠ -1 := by omega
      have hout : fdOut = p.fd := hpass hpfd
      refine ⟨?_, fun hfd => absurd h3 hfd, hlen⟩
      intro q hq
      rcases List.mem_cons.mp hq with rfl | hmem
      · exact ⟨h1, by omega, hout.symm⟩
      · exact hrest q hmem
    · obtain ⟨hrest, hpass, hlen⟩ := ih _ _ h
      have hout : fdOut = fd := hpass h3
      refine ⟨?_, fun _ => hout, hlen⟩
      intro q hq
      rcases List.mem_cons.mp hq with rfl | hmem
      · refine ⟨h1, by omega, ?_⟩
        rw [hout]
        omega
      · exact hrest q hmem

/-- The plane loop succeeds when every plane has a defined offset and the
one valid descriptor, returning the folded maximum length. -/
theorem mapPlanesLoop_consistent_ok (f0 : Int) (hf0 : 0 ≤ f0)
    (planes : List Plane) :
    ∀ acc : Nat, (∀ p ∈ planes, p.offset ≠ kInvalidOffset ∧ p.fd = f0) →
      mapPlanesLoop planes acc f0 = .ok (bufferLengthFold planes acc, f0) := by
  induction planes with
  | nil => intro acc _; rfl
  | cons p rest ih =>
    intro acc hp
    obtain ⟨hoff, hfd⟩ := hp p (List.mem_cons_self p rest)
    unfold mapPlanesLoop
    rw [if_neg hoff, if_neg (show ¬ p.fd < 0 by rw [hfd]; omega),
      if_neg (show ¬ f0 = -1 by omega), if_neg (show ¬ f0 ≠ p.fd by simp [hfd])]
    exact ih _ (fun q hq => hp q (List.mem_cons_of_mem p hq))

/-- C7: for every buffer being mapped at startup, a plane with the
kInvalidOffset sentinel is an error; two planes with differing descriptors
are an error; a failing mmap call is an error (each error logs and calls
ros::shutdown()); and otherwise the recorded mapped length is the maximum
over the planes of offset + length, mapped read-only and shared. The mmap
oracle hypothesis records the OS fact that mapping through an invalid
descriptor fails. -/
theorem C7_mapBuffer_spec (mmapOracle : Int → Nat → Option Nat)
    (planes : List Plane)
    (hOS : ∀ (fd : Int) (n : Nat), fd < 0 → mmapOracle fd n = none) :
    ((∃ p ∈ planes, p.offset = kInvalidOffset) →
      ∃ e, mapBuffer mmapOracle planes = .error e)
    ∧ (∀ p ∈ planes, ∀ q ∈ planes, p.fd ≠ q.fd →
      ∃ e, mapBuffer mmapOracle planes = .error e)
    ∧ (∀ (bufLen : Nat) (fd : Int),
      mapPlanesLoop planes 0 (-1) = .ok (bufLen, fd) →
      mmapOracle fd bufLen = none →
      mapBuffer mmapOracle planes = .error .mmapFailed)
    ∧ (∀ addr : Nat, (∀ p ∈ planes, p.offset ≠ kInvalidOffset) →
      (∀ p ∈ planes, ∀ q ∈ planes, p.fd = q.fd) →
      mmapOracle (commonFd planes) (bufferLengthFold planes 0) = some addr →
      mapBuffer mmapOracle planes
        = .ok ⟨addr, bufferLengthFold planes 0, true, true⟩) := by
  refine ⟨?_, ?_, ?_, ?_⟩
  · rintro ⟨p, hp, hoff⟩
    cases hres : mapPlanesLoop planes 0 (-1) with
    | error e => exact ⟨e, by simp [mapBuffer, hres]⟩
    | ok v =>
      obtain ⟨L, F⟩ := v
      exact absurd hoff ((mapPlanesLoop_ok_facts planes 0 (-1) L F hres).1 p hp).1
  · intro p hp q hq hne
    cases hres : mapPlanesLoop planes 0 (-1) with
    | error e => exact ⟨e, by simp [mapBuffer, hres]⟩
    | ok v =>
      obtain ⟨L, F⟩ := v
      have hfacts := (mapPlanesLoop_ok_facts planes 0 (-1) L F hres).1
      have hps := (hfacts p hp).2.2
      have hqs := (hfacts q hq).2.2
      exact absurd (hps.trans hqs.symm) hne
  · intro bufLen fd hres hnone
    simp [mapBuffer, hres, hnone]
  · intro addr hoff hcons hor
    cases planes with
    | nil =>
      rw [show commonFd [] = -1 from rfl, hOS (-1) _ (by omega)] at hor
      exact absurd hor (by simp)
    | cons p rest =>
      rw [show commonFd (p :: rest) = p.fd from rfl] at hor
      have hvalid : 0 ≤ p.fd := by
        by_contra hneg
        rw [hOS p.fd _ (by omega)] at hor
        exact absurd hor (by simp)
      have hloop : mapPlanesLoop (p :: rest) 0 (-1)
          = .ok (bufferLengthFold (p :: rest) 0, p.fd) := by
        unfold mapPlanesLoop
        rw [if_neg (hoff p (List.mem_cons_self p rest)),
          if_neg (show ¬ p.fd < 0 by omega), if_pos rfl]
        exact mapPlanesLoop_consistent_ok p.fd hvalid rest _
          (fun q hq => ⟨hoff q (List.mem_cons_of_mem p hq),
            hcons q (List.mem_cons_of_mem p hq) p (List.mem_cons_self p rest)⟩)
      simp [mapBuffer, hloop, hor]

/-- C7 witness: two planes covering 150 bytes through descriptor 3, with an
oracle that fails on invalid descriptors and maps to base address n + 1:
the buffer maps read-only and shared with recorded length 150. -/
theorem C7_mapBuffer_spec_witness :
    mapBuffer (fun fd n => if fd < 0 then none else some (n + 1))
        [⟨0, 100, 3⟩, ⟨100, 50, 3⟩]
      = .ok ⟨151, 150, true, true⟩ := by
  have h := (C7_mapBuffer_spec (fun fd n => if fd < 0 then none else some (n + 1))
      [⟨0, 100, 3⟩, ⟨100, 50, 3⟩]
      (fun fd n hfd => by simp [hfd])).2.2.2
  exact h 151 (by decide) (by decide) (by decide)

end LibcameraRosDriver
